import Mathlib

/-!
Shallow embedding of the poker-planning client (src/src/App.tsx, src/src/types.ts).

The program is a React client over a Supabase backend.  We embed the pure
logic the claims are about:

* the data model (`Room`, `Participant`, types.ts) and the backend database
  as two row lists;
* `calculateAverage` (App.tsx 178-188), including a model of the JavaScript
  `Number()` string conversion and of `toFixed(1)` rounding;
* the vote / reveal / reset / join / create handlers as state transformers
  over the database plus the local controller state, with backend writes
  reified as a `WriteOp` trace (App.tsx 52-224);
* the realtime reconciliation handlers for the `rooms` and `participants`
  tables (App.tsx 250-295).

Numbers are idealised as rationals (JS doubles carry enough precision for
the small integer vote labels this program produces, so no claim depends on
float rounding).
-/

namespace PokerPlanning

/-- types.ts: `VotingSystem = "fibonacci" | "linear" | "tshirt"`. -/
inductive VotingSystem where
  | fibonacci
  | linear
  | tshirt
deriving DecidableEq, Repr

/-- types.ts: interface `Room`. -/
structure Room where
  id : String
  name : String
  voting_system : VotingSystem
  revealed : Bool
  created_at : String
deriving DecidableEq, Repr

/-- types.ts: interface `Participant`.  `vote` is a nullable string
(`none` = SQL null = "no vote yet"). -/
structure Participant where
  id : String
  room_id : String
  name : String
  vote : Option String
  created_at : String
deriving DecidableEq, Repr

/-- The backend store (spec section 6): two tables, `rooms` and
`participants`, modelled as row lists. -/
structure Database where
  rooms : List Room
  participants : List Participant
deriving DecidableEq, Repr

/-! ## JavaScript numeric conversion

`calculateAverage` applies the JS builtin `Number()` to each vote and
filters with `isNaN`.  We model the result of `Number()` as `Option ℚ`,
`none` standing for NaN.  The string grammar is the one this application
can produce (whitespace-trimmed optional-sign decimal literals; an empty
or all-whitespace string converts to 0).  Exponent, hex, octal, binary and
Infinity forms of the full JS grammar are unused by the program (votes are
drawn from the fixed label set 0..55) and are mapped to NaN. -/

/-- JS string whitespace (the common forms). -/
def jsWhitespace (c : Char) : Bool :=
  c = ' ' || c = '\t' || c = '\n' || c = '\r' || c = '\x0b' || c = '\x0c'

/-- Value of a digit string, most significant first. -/
def digitsVal (cs : List Char) : ℕ :=
  cs.foldl (fun acc c => 10 * acc + (c.toNat - '0'.toNat)) 0

/-- Parse an unsigned JS decimal literal: digits, with an optional single
decimal point; at least one digit overall. -/
def parseUnsigned (cs : List Char) : Option ℚ :=
  let intPart := cs.takeWhile Char.isDigit
  match cs.dropWhile Char.isDigit with
  | [] => if intPart = [] then none else some (digitsVal intPart)
  | '.' :: frac =>
      if frac.all Char.isDigit && !(intPart = [] && frac = []) then
        some ((digitsVal intPart : ℚ) + (digitsVal frac : ℚ) / 10 ^ frac.length)
      else none
  | _ => none

/-- Optional leading sign. -/
def parseSigned (cs : List Char) : Option ℚ :=
  match cs with
  | '+' :: rest => parseUnsigned rest
  | '-' :: rest => (parseUnsigned rest).map (fun q => -q)
  | _ => parseUnsigned cs

/-- JS `Number(s)` for a string `s` (restricted grammar, see above):
trim whitespace; empty trims to 0; otherwise a signed decimal literal,
anything else being NaN (`none`). -/
def strToNumber (s : String) : Option ℚ :=
  let t := ((s.toList.dropWhile jsWhitespace).reverse.dropWhile jsWhitespace).reverse
  if t = [] then some 0 else parseSigned t

/-- JS `Number(p.vote)` where `p.vote : string | null`:
`Number(null) = 0`, strings as `strToNumber`. -/
def jsNumber : Option String → Option ℚ
  | none => some 0
  | some s => strToNumber s

/-- JS `Number(x.toFixed(1))`: round to one decimal place, ties away from
zero (ECMA toFixed separates the sign, then picks the larger candidate
integer numerator on a tie). -/
def round1 (q : ℚ) : ℚ :=
  if q < 0 then -((⌊-q * 10 + 1 / 2⌋ : ℚ) / 10)
  else (⌊q * 10 + 1 / 2⌋ : ℚ) / 10

/-- App.tsx 179-181, the `numericVotes` intermediate of `calculateAverage`:
`participants.map((p) => Number(p.vote)).filter((vote) => !isNaN(vote))`. -/
def numericVotes (participants : List Participant) : List ℚ :=
  (participants.map (fun p => jsNumber p.vote)).filterMap id

/-- App.tsx 178-188, `calculateAverage`: map votes through `Number`,
filter out NaN, return 0 when nothing is left, else the mean rounded to
one decimal. -/
def calculateAverage (participants : List Participant) : ℚ :=
  if (numericVotes participants).length = 0 then 0
  else round1 ((numericVotes participants).foldl (· + ·) 0 / (numericVotes participants).length)

/-- Modelled from the spec wording of claim C1 (not from the source):
"filters to exactly those participants whose vote parses as a finite
number — ignoring non-numeric or absent (null) votes".  An absent vote is
ignored rather than converted. -/
def averageSpec (participants : List Participant) : ℚ :=
  let qualifying := participants.filterMap (fun p => p.vote.bind strToNumber)
  if qualifying = [] then 0
  else round1 (qualifying.foldl (· + ·) 0 / qualifying.length)

/-- The amended reading of claim C1: non-numeric strings are ignored, but
an absent (null) vote converts to 0 and is counted. -/
def averageAmended (participants : List Participant) : ℚ :=
  let qualifying := participants.filterMap (fun p => jsNumber p.vote)
  if qualifying = [] then 0
  else round1 (qualifying.foldl (· + ·) 0 / qualifying.length)

/-! Sample rows used by concrete witnesses and counterexamples. -/

def pAlice3 : Participant := ⟨"p1", "r1", "Alice", some "3", "t1"⟩

def pBobNull : Participant := ⟨"p2", "r1", "Bob", none, "t2"⟩

def pCarolX : Participant := ⟨"p3", "r1", "Carol", some "x", "t3"⟩

def pDave5 : Participant := ⟨"p4", "r1", "Dave", some "5", "t4"⟩

/-! ## Controller-local state and backend writes

The component state the claims mention: `isRevealed`, `currentVote`
(the "localVote" of the spec) and the cached `average`.  Backend writes
issued by the handlers are reified as a `WriteOp` trace so that claims
about write order and partial failure can be stated. -/

/-- Local controller state touched by vote / reveal / reset. -/
structure ControllerView where
  isRevealed : Bool
  currentVote : Option String
  average : Option ℚ
deriving DecidableEq, Repr

/-- A backend write request, as issued by the handlers. -/
inductive WriteOp where
  | setRoomRevealed (roomId : String) (value : Bool)
  | clearRoomVotes (roomId : String)
  | setParticipantVote (participantId : Option String) (value : String)
deriving DecidableEq, Repr

/-- Effect of one write on the store.  Supabase `update ... eq` touches
every row matching the filter; `eq("id", null)` matches no row. -/
def applyWrite (db : Database) : WriteOp → Database
  | .setRoomRevealed rid v =>
      { db with rooms := db.rooms.map (fun r => if r.id = rid then { r with revealed := v } else r) }
  | .clearRoomVotes rid =>
      { db with participants :=
          db.participants.map (fun p => if p.room_id = rid then { p with vote := none } else p) }
  | .setParticipantVote pid v =>
      { db with participants :=
          db.participants.map (fun p => if some p.id = pid then { p with vote := some v } else p) }

/-- App.tsx 163-175, `handleVote`: update the row whose id equals the
(possibly null) `participantId`, then set `currentVote` optimistically.
There is no joined-guard and no failure outcome on the success path. -/
def handleVote (db : Database) (participantId : Option String) (value : String)
    (st : ControllerView) : Database × List WriteOp × ControllerView :=
  let writes := [WriteOp.setParticipantVote participantId value]
  (writes.foldl applyWrite db, writes, { st with currentVote := some value })

/-- App.tsx 190-205, `handleReveal` (success path): one write setting the
room revealed, then `isRevealed := true` and the average of the current
roster.  The roster is not consulted for any guard. -/
def handleReveal (db : Database) (roomId : String) (participants : List Participant)
    (st : ControllerView) : Database × List WriteOp × ControllerView :=
  let writes := [WriteOp.setRoomRevealed roomId true]
  (writes.foldl applyWrite db, writes,
    { st with isRevealed := true, average := some (calculateAverage participants) })

/-- App.tsx 572, the Reveal button gate in the UI layer:
`disabled={!participants.every((p) => p.vote)}` with JS truthiness
(null and the empty string are falsy). -/
def voteTruthy : Option String → Bool
  | none => false
  | some s => !(s = "")

/-- The UI-layer reveal gate (App.tsx 572). -/
def revealDisabled (participants : List Participant) : Bool :=
  !(participants.all (fun p => voteTruthy p.vote))

/-- App.tsx 208-224, `handleReset`: two sequential writes (room unrevealed,
then all votes in the room cleared), then clear the local view. -/
def handleReset (db : Database) (roomId : String)
    (_st : ControllerView) : Database × List WriteOp × ControllerView :=
  let writes := [WriteOp.setRoomRevealed roomId false, WriteOp.clearRoomVotes roomId]
  (writes.foldl applyWrite db, writes, ⟨false, none, none⟩)

/-! ## Realtime reconciliation (App.tsx 250-295)

One channel delivers `rooms` changes and `participants` changes.  The
`rooms` handler reads `payload.new` (absent on a delete); the
`participants` handler switches on the event type, an insert carrying the
new row, an update the new row, a delete the old row. -/

/-- App.tsx 250-257, handler for `rooms` changes: if the payload carries a
new row, adopt its `revealed`; when that value is false also clear
`currentVote`. -/
def roomsHandler (payloadNew : Option Room) (st : ControllerView) : ControllerView :=
  match payloadNew with
  | none => st
  | some r =>
      { st with isRevealed := r.revealed,
                currentVote := if r.revealed then st.currentVote else none }

/-- A `postgres_changes` payload on the `participants` table. -/
inductive PgEvent where
  | insert (new : Participant)
  | update (new : Participant)
  | delete (old : Participant)
deriving DecidableEq, Repr

/-- The row the event is keyed on (`payload.new.id` for insert/update,
`payload.old.id` for delete). -/
def eventId : PgEvent → String
  | .insert r => r.id
  | .update r => r.id
  | .delete old => old.id

/-- The UPDATE branch replacement: `p.id === payload.new.id ? payload.new : p`. -/
def updFn (new : Participant) (p : Participant) : Participant :=
  if p.id = new.id then new else p

/-- App.tsx 268-295, effect of one participants event on the roster:
INSERT appends unless an entry with the same id exists, DELETE filters by
the old id, UPDATE maps the replacement over the roster. -/
def applyParticipantEvent (prev : List Participant) : PgEvent → List Participant
  | .insert new => if prev.any (fun p => p.id == new.id) then prev else prev ++ [new]
  | .delete old => prev.filter (fun p => p.id != old.id)
  | .update new => prev.map (updFn new)

/-- A whole event sequence applied to a roster. -/
def applyParticipantEvents (prev : List Participant) (events : List PgEvent) : List Participant :=
  events.foldl applyParticipantEvent prev

/-! ## Join and create (App.tsx 52-160)

The backend generates row ids; they enter the model as arguments.  The
`.single()` queries are modelled by `List.find?`: a matching row found
means the duplicate-name pre-check fails.  Error messages are the ones of
the source; the spec names them `RoomNotFound` / `DuplicateName`. -/

/-- Result of `joinRoom`.  `noop` is the silent `if (!username || !roomId)
return` guard; the two failures set the corresponding error message and
leave the store unchanged; success returns the store with the new
participant row plus the adopted local state. -/
inductive JoinOutcome where
  | noop
  | roomNotFound
  | duplicateName
  | success (db : Database) (participantId : String) (revealed : Bool)
deriving DecidableEq, Repr

/-- App.tsx 108-160, `joinRoom`: require a room row with the given id
(else "Room not found"), require no same-named participant in the room
(else the duplicate message), then insert the participant with a null
vote and adopt the rooms revealed flag. -/
def joinRoom (db : Database) (roomId username pid createdAt : String) : JoinOutcome :=
  if username = "" || roomId = "" then .noop
  else
    match db.rooms.find? (fun r => r.id == roomId) with
    | none => .roomNotFound
    | some room =>
        match db.participants.find? (fun p => p.room_id == roomId && p.name == username) with
        | some _ => .duplicateName
        | none =>
            .success
              { db with participants := db.participants ++ [⟨pid, roomId, username, none, createdAt⟩] }
              pid room.revealed

/-- Result of `createRoom`.  On a duplicate name the room row has already
been inserted and stays (the source returns after `setError`). -/
inductive CreateOutcome where
  | duplicateName (db : Database)
  | success (db : Database) (roomId : String) (participantId : String)
deriving DecidableEq, Repr

/-- App.tsx 52-105, `createRoom`: insert a room row with `revealed =
false` (name and voting system take backend defaults, modelled as the
empty string and fibonacci), check for a same-named participant in the
new room, then insert the participant row with a null vote. -/
def createRoom (db : Database) (username newRoomId pid createdAt : String) : CreateOutcome :=
  let room : Room := ⟨newRoomId, "", .fibonacci, false, createdAt⟩
  let dbWithRoom := { db with rooms := db.rooms ++ [room] }
  match dbWithRoom.participants.find? (fun p => p.room_id == newRoomId && p.name == username) with
  | some _ => .duplicateName dbWithRoom
  | none =>
      .success
        { dbWithRoom with
          participants := dbWithRoom.participants ++ [⟨pid, newRoomId, username, none, createdAt⟩] }
        newRoomId pid

/-! ## Helper lemmas -/

/-- `toFixed(1)` is the identity on rationals that are an integer number
of tenths (all values the claims evaluate at). -/
theorem round1_eq_self (q : ℚ) (z : ℤ) (h0 : 0 ≤ q) (hz : q * 10 = (z : ℚ)) :
    round1 q = q := by
  have hnot : ¬ q < 0 := not_lt.mpr h0
  have hfl : ⌊q * 10 + 1 / 2⌋ = z := by
    rw [hz, add_comm, Int.floor_add_int]
    norm_num
  rw [round1, if_neg hnot, hfl]
  field_simp at hz ⊢
  linarith

theorem updFn_id (new p : Participant) : (updFn new p).id = p.id := by
  rw [updFn]
  split
  · rename_i h
    rw [h]
  · rfl

theorem updFn_of_ne (new p : Participant) (h : p.id ≠ new.id) : updFn new p = p := by
  rw [updFn, if_neg h]

theorem updFn_idem (new p : Participant) : updFn new (updFn new p) = updFn new p := by
  by_cases h : p.id = new.id
  · have h1 : updFn new p = new := by rw [updFn, if_pos h]
    rw [h1, updFn, if_pos rfl]
  · rw [updFn_of_ne new p h, updFn_of_ne new p h]

theorem any_id_map_updFn (s : List Participant) (r : Participant) (i : String) :
    ((s.map (updFn r)).any fun p => p.id == i) = s.any fun p => p.id == i := by
  induction s with
  | nil => rfl
  | cons p s ih => simp [List.any_cons, updFn_id, ih]

theorem any_id_filter_ne (s : List Participant) (i j : String) (hij : i ≠ j) :
    ((s.filter fun p => p.id != j).any fun p => p.id == i) = s.any fun p => p.id == i := by
  induction s with
  | nil => rfl
  | cons p s ih =>
      by_cases h : p.id = j
      · have h1 : List.filter (fun q => q.id != j) (p :: s) =
            List.filter (fun q => q.id != j) s := by
          apply List.filter_cons_of_neg
          simp [h]
        have hpi : (p.id == i) = false := by
          simp [h]
          exact fun hc => hij hc.symm
        rw [h1, ih, List.any_cons, hpi, Bool.false_or]
      · have h1 : List.filter (fun q => q.id != j) (p :: s) =
            p :: List.filter (fun q => q.id != j) s := by
          apply List.filter_cons_of_pos
          simp [h]
        rw [h1, List.any_cons, List.any_cons, ih]

/-! ## Claim C1: the average as specified versus the code -/

/-- Claim C1 is false as stated: the spec says absent (null) votes are
ignored, but `Number(null) = 0` passes the `isNaN` filter, so the code
counts a null vote as 0.  On the roster [vote "3", vote null] the code
returns 1.5 while the spec-described function returns 3. -/
theorem claim1_counterexample :
    calculateAverage [pAlice3, pBobNull] = 3 / 2
      ∧ averageSpec [pAlice3, pBobNull] = 3
      ∧ (3 / 2 : ℚ) ≠ 3 := by
  refine ⟨?_, ?_, by norm_num⟩
  · have e1 : calculateAverage [pAlice3, pBobNull] =
        round1 (((0 : ℚ) + 3 + 0) / ((2 : ℕ) : ℚ)) := rfl
    have h : round1 (3 / 2) = 3 / 2 := round1_eq_self (3 / 2) 15 (by norm_num) (by norm_num)
    rw [e1]
    norm_num [h]
  · have e1 : averageSpec [pAlice3, pBobNull] =
        round1 (((0 : ℚ) + 3) / ((1 : ℕ) : ℚ)) := rfl
    have h : round1 3 = 3 := round1_eq_self 3 30 (by norm_num) (by norm_num)
    rw [e1]
    norm_num [h]

/-- Claim C1 amended: `calculateAverage` filters to the votes that
`Number` converts to a non-NaN value — which counts an absent (null)
vote as 0 instead of ignoring it — returns 0 if none qualify, and
otherwise returns the arithmetic mean of the qualifying values rounded
to one decimal place. -/
theorem claim1_amended (participants : List Participant) :
    calculateAverage participants = averageAmended participants := by
  have h : numericVotes participants = participants.filterMap (fun p => jsNumber p.vote) := by
    rw [numericVotes, List.filterMap_map]
    rfl
  simp only [calculateAverage, averageAmended, h, List.length_eq_zero]

/-! ## Claim C2: the three spec test vectors -/

/-- Claim C2: `Average([]) = 0`, `Average([{vote:"3"},{vote:"5"}]) = 4.0`
and `Average([{vote:"x"},{vote:null}]) = 0` all hold of the code (the
last one because its only qualifying value is `Number(null) = 0`). -/
theorem claim2_vectors :
    calculateAverage [] = 0
      ∧ calculateAverage [pAlice3, pDave5] = 4
      ∧ calculateAverage [pCarolX, pBobNull] = 0 := by
  refine ⟨rfl, ?_, ?_⟩
  · have e1 : calculateAverage [pAlice3, pDave5] =
        round1 (((0 : ℚ) + 3 + 5) / ((2 : ℕ) : ℚ)) := rfl
    have h : round1 4 = 4 := round1_eq_self 4 40 (by norm_num) (by norm_num)
    rw [e1]
    norm_num [h]
  · have e1 : calculateAverage [pCarolX, pBobNull] =
        round1 (((0 : ℚ) + 0) / ((1 : ℕ) : ℚ)) := rfl
    have h : round1 0 = 0 := round1_eq_self 0 0 (by norm_num) (by norm_num)
    rw [e1]
    norm_num [h]

/-! ## Claim C9: null votes count as zero -/

/-- Claim C9: a participant with a null vote contributes the value 0 to
the filtered vote list (`Number(null) = 0` is not NaN), so the mean
counts them instead of ignoring them; the roster [vote "3", vote null]
averages to 1.5, not 3. -/
theorem claim9_null_counted :
    (∀ p : Participant, p.vote = none → jsNumber p.vote = some 0)
      ∧ (∀ (p : Participant) (ps : List Participant), p.vote = none →
          numericVotes (p :: ps) = 0 :: numericVotes ps)
      ∧ calculateAverage [pAlice3, pBobNull] = 3 / 2
      ∧ calculateAverage [pAlice3, pBobNull] ≠ 3 := by
  have hval : calculateAverage [pAlice3, pBobNull] = 3 / 2 := by
    have e1 : calculateAverage [pAlice3, pBobNull] =
        round1 (((0 : ℚ) + 3 + 0) / ((2 : ℕ) : ℚ)) := rfl
    have h : round1 (3 / 2) = 3 / 2 := round1_eq_self (3 / 2) 15 (by norm_num) (by norm_num)
    rw [e1]
    norm_num [h]
  refine ⟨?_, ?_, hval, ?_⟩
  · intro p h
    rw [h]
    rfl
  · intro p ps h
    simp [numericVotes, h, jsNumber]
  · rw [hval]
    norm_num

/-- Concrete instantiation of the hypotheses of C9 at the null-voting
participant `pBobNull`. -/
theorem claim9_witness :
    jsNumber pBobNull.vote = some 0
      ∧ numericVotes [pBobNull, pAlice3] = 0 :: numericVotes [pAlice3] :=
  ⟨claim9_null_counted.1 pBobNull rfl, claim9_null_counted.2.1 pBobNull [pAlice3] rfl⟩

/-! ## Claim C4: the rooms-table reconciliation handler -/

/-- Claim C4: on any rooms-change event carrying a new row the handler
adopts the new `revealed` value, and whenever that value is false it
also clears `currentVote` — for every local controller state, hence for
every connected controller instance whatever its pending local vote. -/
theorem claim4_rooms_handler (st : ControllerView) (r : Room) :
    (roomsHandler (some r) st).isRevealed = r.revealed
      ∧ (r.revealed = false → (roomsHandler (some r) st).currentVote = none) := by
  constructor
  · rfl
  · intro h
    simp [roomsHandler, h]

/-! ## Roster reconciliation lemmas -/

theorem apply_insert_of_found (s : List Participant) (r : Participant)
    (h : s.any (fun p => p.id == r.id) = true) :
    applyParticipantEvent s (.insert r) = s := by
  simp [applyParticipantEvent, h]

theorem apply_insert_of_missing (s : List Participant) (r : Participant)
    (h : s.any (fun p => p.id == r.id) = false) :
    applyParticipantEvent s (.insert r) = s ++ [r] := by
  simp [applyParticipantEvent, h]

theorem updFn_comm (r₁ r₂ p : Participant) (h : r₁.id ≠ r₂.id) :
    updFn r₂ (updFn r₁ p) = updFn r₁ (updFn r₂ p) := by
  by_cases h1 : p.id = r₁.id
  · have e1 : updFn r₁ p = r₁ := by rw [updFn, if_pos h1]
    have e2 : updFn r₂ p = p := updFn_of_ne r₂ p (by rw [h1]; exact h)
    rw [e1, e2, updFn_of_ne r₂ r₁ h, e1]
  · by_cases h2 : p.id = r₂.id
    · have e2 : updFn r₂ p = r₂ := by rw [updFn, if_pos h2]
      have e1 : updFn r₁ p = p := updFn_of_ne r₁ p h1
      have hne : r₂.id ≠ r₁.id := fun hc => h hc.symm
      rw [e1, e2, updFn_of_ne r₁ r₂ hne]
    · rw [updFn_of_ne r₁ p h1, updFn_of_ne r₂ p h2, updFn_of_ne r₁ p h1]

theorem map_updFn_of_absent (s : List Participant) (r : Participant)
    (h : ∀ p ∈ s, p.id ≠ r.id) : s.map (updFn r) = s := by
  have hcongr : s.map (updFn r) = s.map id :=
    List.map_congr_left (fun p hp => updFn_of_ne r p (h p hp))
  rw [hcongr, List.map_id]

/-! ## Claim C10: edge behaviors of the participants handler -/

/-- Claim C10: the participants handler applies events strictly by id —
INSERT appends only when no entry with the same id exists and is
otherwise a no-op; UPDATE replaces the matching entry, is a no-op when
none matches (it never inserts, the roster length is preserved); DELETE
removes exactly the entries matching the old id and is a no-op when none
matches. -/
theorem claim10_roster_edges :
    (∀ (s : List Participant) (r : Participant), (∀ p ∈ s, p.id ≠ r.id) →
        applyParticipantEvent s (.insert r) = s ++ [r])
      ∧ (∀ (s : List Participant) (r : Participant), (∃ p ∈ s, p.id = r.id) →
        applyParticipantEvent s (.insert r) = s)
      ∧ (∀ (s : List Participant) (r : Participant), (∀ p ∈ s, p.id ≠ r.id) →
        applyParticipantEvent s (.update r) = s)
      ∧ (∀ (s : List Participant) (r : Participant),
        (applyParticipantEvent s (.update r)).length = s.length)
      ∧ (∀ (l₁ l₂ : List Participant) (p r : Participant), p.id = r.id →
        (∀ q ∈ l₁, q.id ≠ r.id) → (∀ q ∈ l₂, q.id ≠ r.id) →
        applyParticipantEvent (l₁ ++ p :: l₂) (.update r) = l₁ ++ r :: l₂)
      ∧ (∀ (s : List Participant) (o : Participant), (∀ p ∈ s, p.id ≠ o.id) →
        applyParticipantEvent s (.delete o) = s)
      ∧ (∀ (s : List Participant) (o q : Participant),
        q ∈ applyParticipantEvent s (.delete o) ↔ q ∈ s ∧ q.id ≠ o.id) := by
  refine ⟨?_, ?_, ?_, ?_, ?_, ?_, ?_⟩
  · intro s r h
    apply apply_insert_of_missing
    rw [List.any_eq_false]
    intro p hp
    simp only [beq_iff_eq]
    exact h p hp
  · intro s r hex
    apply apply_insert_of_found
    rw [List.any_eq_true]
    obtain ⟨p, hp, hid⟩ := hex
    exact ⟨p, hp, by simp [hid]⟩
  · intro s r h
    exact map_updFn_of_absent s r h
  · intro s r
    exact List.length_map s (updFn r)
  · intro l₁ l₂ p r hpr h1 h2
    show (l₁ ++ p :: l₂).map (updFn r) = l₁ ++ r :: l₂
    rw [List.map_append, List.map_cons, map_updFn_of_absent l₁ r h1,
      map_updFn_of_absent l₂ r h2, updFn, if_pos hpr]
  · intro s o h
    show s.filter (fun p => p.id != o.id) = s
    rw [List.filter_eq_self]
    intro p hp
    simp only [bne_iff_ne, ne_eq]
    exact h p hp
  · intro s o q
    show q ∈ s.filter (fun p => p.id != o.id) ↔ q ∈ s ∧ q.id ≠ o.id
    simp [List.mem_filter]

/-- C10 instantiated: on the one-entry roster [pAlice3], inserting,
updating and deleting the unrelated row pDave5. -/
theorem claim10_witness :
    applyParticipantEvent [pAlice3] (PgEvent.insert pDave5) = [pAlice3, pDave5]
      ∧ applyParticipantEvent [pAlice3] (PgEvent.update pDave5) = [pAlice3]
      ∧ applyParticipantEvent [pAlice3] (PgEvent.delete pDave5) = [pAlice3] :=
  ⟨claim10_roster_edges.1 [pAlice3] pDave5 (by decide),
   claim10_roster_edges.2.2.1 [pAlice3] pDave5 (by decide),
   claim10_roster_edges.2.2.2.2.2.1 [pAlice3] pDave5 (by decide)⟩

/-! ## Claim C3: order-(in)dependence of reconciliation -/

/-- Claim C3 is false as stated: the same two events (an insert of a row
and the delete of that row) applied in the two possible orders to the
empty roster give different final rosters — the handler is not
order-independent, because an UPDATE or DELETE arriving before the
corresponding INSERT is silently dropped. -/
theorem claim3_counterexample :
    [PgEvent.insert pAlice3, PgEvent.delete pAlice3].Perm
        [PgEvent.delete pAlice3, PgEvent.insert pAlice3]
      ∧ applyParticipantEvents [] [PgEvent.insert pAlice3, PgEvent.delete pAlice3] = []
      ∧ applyParticipantEvents [] [PgEvent.delete pAlice3, PgEvent.insert pAlice3] = [pAlice3]
      ∧ ([] : List Participant) ≠ [pAlice3] :=
  ⟨List.Perm.swap _ _ _, rfl, rfl, by decide⟩

/-- Claim C3 amended: every reconciliation step is idempotent (applying
the same event twice in a row equals applying it once), and two events
keyed on distinct row ids commute up to roster permutation; but the
final roster does depend on the arrival order of events sharing an id
(see the counterexample), so full order-independence fails. -/
theorem claim3_amended :
    (∀ (s : List Participant) (e : PgEvent),
        applyParticipantEvent (applyParticipantEvent s e) e = applyParticipantEvent s e)
      ∧ (∀ (s : List Participant) (e₁ e₂ : PgEvent), eventId e₁ ≠ eventId e₂ →
        (applyParticipantEvent (applyParticipantEvent s e₁) e₂).Perm
          (applyParticipantEvent (applyParticipantEvent s e₂) e₁)) := by
  constructor
  · intro s e
    cases e with
    | insert r =>
        cases hc : s.any (fun p => p.id == r.id) with
        | true => rw [apply_insert_of_found s r hc, apply_insert_of_found s r hc]
        | false =>
            rw [apply_insert_of_missing s r hc]
            apply apply_insert_of_found
            simp [List.any_append]
    | update r =>
        show ((s.map (updFn r)).map (updFn r)) = s.map (updFn r)
        rw [List.map_map]
        exact List.map_congr_left (fun p _ => updFn_idem r p)
    | delete o =>
        show (s.filter (fun p => p.id != o.id)).filter (fun p => p.id != o.id) =
          s.filter (fun p => p.id != o.id)
        rw [List.filter_filter]
        exact List.filter_congr (fun p _ => Bool.and_self _)
  · intro s e₁ e₂ h
    cases e₁ with
    | insert r₁ =>
        cases e₂ with
        | insert r₂ =>
            simp only [eventId] at h
            have h21 : (r₂.id == r₁.id) = false := by
              simp only [beq_eq_false_iff_ne, ne_eq]
              exact fun hc => h hc.symm
            have h12 : (r₁.id == r₂.id) = false := by
              simp only [beq_eq_false_iff_ne, ne_eq]
              exact h
            cases hc1 : s.any (fun p => p.id == r₁.id) with
            | true =>
                cases hc2 : s.any (fun p => p.id == r₂.id) with
                | true =>
                    rw [apply_insert_of_found s r₁ hc1, apply_insert_of_found s r₂ hc2,
                      apply_insert_of_found s r₁ hc1]
                | false =>
                    rw [apply_insert_of_found s r₁ hc1, apply_insert_of_missing s r₂ hc2]
                    have hA : (s ++ [r₂]).any (fun p => p.id == r₁.id) = true := by
                      simp [List.any_append, hc1]
                    rw [apply_insert_of_found (s ++ [r₂]) r₁ hA]
            | false =>
                cases hc2 : s.any (fun p => p.id == r₂.id) with
                | true =>
                    rw [apply_insert_of_found s r₂ hc2, apply_insert_of_missing s r₁ hc1]
                    have hA : (s ++ [r₁]).any (fun p => p.id == r₂.id) = true := by
                      simp [List.any_append, hc2]
                    rw [apply_insert_of_found (s ++ [r₁]) r₂ hA]
                | false =>
                    rw [apply_insert_of_missing s r₁ hc1, apply_insert_of_missing s r₂ hc2]
                    have hA : (s ++ [r₁]).any (fun p => p.id == r₂.id) = false := by
                      simp [List.any_append, hc2, h12]
                    have hB : (s ++ [r₂]).any (fun p => p.id == r₁.id) = false := by
                      simp [List.any_append, hc1, h21]
                    rw [apply_insert_of_missing (s ++ [r₁]) r₂ hA,
                      apply_insert_of_missing (s ++ [r₂]) r₁ hB,
                      List.append_assoc, List.append_assoc]
                    exact List.Perm.append_left s (List.Perm.swap r₂ r₁ [])
        | update r₂ =>
            simp only [eventId] at h
            have key : ∀ t : List Participant,
                applyParticipantEvent t (.update r₂) = t.map (updFn r₂) := fun _ => rfl
            cases hc : s.any (fun p => p.id == r₁.id) with
            | true =>
                have hA : (s.map (updFn r₂)).any (fun p => p.id == r₁.id) = true := by
                  rw [any_id_map_updFn s r₂ r₁.id]
                  exact hc
                rw [apply_insert_of_found s r₁ hc, key s,
                  apply_insert_of_found (s.map (updFn r₂)) r₁ hA]
            | false =>
                have hA : (s.map (updFn r₂)).any (fun p => p.id == r₁.id) = false := by
                  rw [any_id_map_updFn s r₂ r₁.id]
                  exact hc
                rw [apply_insert_of_missing s r₁ hc, key (s ++ [r₁]), key s,
                  apply_insert_of_missing (s.map (updFn r₂)) r₁ hA,
                  List.map_append, List.map_cons, List.map_nil, updFn_of_ne r₂ r₁ h]
        | delete o₂ =>
            simp only [eventId] at h
            have key : ∀ t : List Participant,
                applyParticipantEvent t (.delete o₂) = t.filter (fun p => p.id != o₂.id) :=
              fun _ => rfl
            cases hc : s.any (fun p => p.id == r₁.id) with
            | true =>
                have hA : (s.filter (fun p => p.id != o₂.id)).any
                    (fun p => p.id == r₁.id) = true := by
                  rw [any_id_filter_ne s r₁.id o₂.id h]
                  exact hc
                rw [apply_insert_of_found s r₁ hc, key s,
                  apply_insert_of_found (s.filter (fun p => p.id != o₂.id)) r₁ hA]
            | false =>
                have hA : (s.filter (fun p => p.id != o₂.id)).any
                    (fun p => p.id == r₁.id) = false := by
                  rw [any_id_filter_ne s r₁.id o₂.id h]
                  exact hc
                have hr : List.filter (fun p => p.id != o₂.id) [r₁] = [r₁] := by
                  simp [h]
                rw [apply_insert_of_missing s r₁ hc, key (s ++ [r₁]), key s,
                  apply_insert_of_missing (s.filter (fun p => p.id != o₂.id)) r₁ hA,
                  List.filter_append, hr]
    | update r₁ =>
        cases e₂ with
        | insert r₂ =>
            simp only [eventId] at h
            have hne : r₂.id ≠ r₁.id := fun hc => h hc.symm
            have key : ∀ t : List Participant,
                applyParticipantEvent t (.update r₁) = t.map (updFn r₁) := fun _ => rfl
            cases hc : s.any (fun p => p.id == r₂.id) with
            | true =>
                have hA : (s.map (updFn r₁)).any (fun p => p.id == r₂.id) = true := by
                  rw [any_id_map_updFn s r₁ r₂.id]
                  exact hc
                rw [key s, apply_insert_of_found (s.map (updFn r₁)) r₂ hA,
                  apply_insert_of_found s r₂ hc, key s]
            | false =>
                have hA : (s.map (updFn r₁)).any (fun p => p.id == r₂.id) = false := by
                  rw [any_id_map_updFn s r₁ r₂.id]
                  exact hc
                rw [key s, apply_insert_of_missing (s.map (updFn r₁)) r₂ hA,
                  apply_insert_of_missing s r₂ hc, key (s ++ [r₂]),
                  List.map_append, List.map_cons, List.map_nil, updFn_of_ne r₁ r₂ hne]
        | update r₂ =>
            simp only [eventId] at h
            show ((s.map (updFn r₁)).map (updFn r₂)).Perm ((s.map (updFn r₂)).map (updFn r₁))
            rw [List.map_map, List.map_map]
            have hmaps : s.map (updFn r₂ ∘ updFn r₁) = s.map (updFn r₁ ∘ updFn r₂) :=
              List.map_congr_left (fun p _ => updFn_comm r₁ r₂ p h)
            rw [hmaps]
        | delete o₂ =>
            simp only [eventId] at h
            show ((s.map (updFn r₁)).filter (fun p => p.id != o₂.id)).Perm
              ((s.filter (fun p => p.id != o₂.id)).map (updFn r₁))
            rw [List.filter_map]
            have hfil : List.filter ((fun p => p.id != o₂.id) ∘ updFn r₁) s =
                List.filter (fun p => p.id != o₂.id) s :=
              List.filter_congr (fun p _ => by
                simp only [Function.comp_apply, updFn_id])
            rw [hfil]
    | delete o₁ =>
        cases e₂ with
        | insert r₂ =>
            simp only [eventId] at h
            have hne : r₂.id ≠ o₁.id := fun hc => h hc.symm
            have key : ∀ t : List Participant,
                applyParticipantEvent t (.delete o₁) = t.filter (fun p => p.id != o₁.id) :=
              fun _ => rfl
            cases hc : s.any (fun p => p.id == r₂.id) with
            | true =>
                have hA : (s.filter (fun p => p.id != o₁.id)).any
                    (fun p => p.id == r₂.id) = true := by
                  rw [any_id_filter_ne s r₂.id o₁.id hne]
                  exact hc
                rw [key s, apply_insert_of_found (s.filter (fun p => p.id != o₁.id)) r₂ hA,
                  apply_insert_of_found s r₂ hc, key s]
            | false =>
                have hA : (s.filter (fun p => p.id != o₁.id)).any
                    (fun p => p.id == r₂.id) = false := by
                  rw [any_id_filter_ne s r₂.id o₁.id hne]
                  exact hc
                have hr : List.filter (fun p => p.id != o₁.id) [r₂] = [r₂] := by
                  simp [hne]
                rw [key s, apply_insert_of_missing (s.filter (fun p => p.id != o₁.id)) r₂ hA,
                  apply_insert_of_missing s r₂ hc, key (s ++ [r₂]),
                  List.filter_append, hr]
        | update r₂ =>
            simp only [eventId] at h
            show ((s.filter (fun p => p.id != o₁.id)).map (updFn r₂)).Perm
              ((s.map (updFn r₂)).filter (fun p => p.id != o₁.id))
            rw [List.filter_map]
            have hfil : List.filter ((fun p => p.id != o₁.id) ∘ updFn r₂) s =
                List.filter (fun p => p.id != o₁.id) s :=
              List.filter_congr (fun p _ => by
                simp only [Function.comp_apply, updFn_id])
            rw [hfil]
        | delete o₂ =>
            show ((s.filter (fun p => p.id != o₁.id)).filter (fun p => p.id != o₂.id)).Perm
              ((s.filter (fun p => p.id != o₂.id)).filter (fun p => p.id != o₁.id))
            rw [List.filter_filter, List.filter_filter]
            have hfil : List.filter (fun a => (a.id != o₂.id) && (a.id != o₁.id)) s =
                List.filter (fun a => (a.id != o₁.id) && (a.id != o₂.id)) s :=
              List.filter_congr (fun p _ => Bool.and_comm _ _)
            rw [hfil]

/-- C3 amended, instantiated: inserting pAlice3 twice is the same as
once, and inserts of the two distinct-id rows pAlice3 and pDave5
commute up to permutation. -/
theorem claim3_witness :
    applyParticipantEvent (applyParticipantEvent [] (PgEvent.insert pAlice3))
        (PgEvent.insert pAlice3) = applyParticipantEvent [] (PgEvent.insert pAlice3)
      ∧ (applyParticipantEvent (applyParticipantEvent [] (PgEvent.insert pAlice3))
          (PgEvent.insert pDave5)).Perm
        (applyParticipantEvent (applyParticipantEvent [] (PgEvent.insert pDave5))
          (PgEvent.insert pAlice3)) :=
  ⟨claim3_amended.1 [] (PgEvent.insert pAlice3),
   claim3_amended.2 [] (PgEvent.insert pAlice3) (PgEvent.insert pDave5) (by decide)⟩

/-- C4 at a concrete reset event (`revealed = false`) hitting a
controller that still holds a local vote it did not initiate clearing. -/
theorem claim4_witness :
    (roomsHandler (some ⟨"r1", "", VotingSystem.fibonacci, false, ""⟩)
        ⟨true, some "5", some 4⟩).isRevealed = false
      ∧ (roomsHandler (some ⟨"r1", "", VotingSystem.fibonacci, false, ""⟩)
        ⟨true, some "5", some 4⟩).currentVote = none :=
  ⟨(claim4_rooms_handler ⟨true, some "5", some 4⟩ ⟨"r1", "", VotingSystem.fibonacci, false, ""⟩).1,
   (claim4_rooms_handler ⟨true, some "5", some 4⟩ ⟨"r1", "", VotingSystem.fibonacci, false, ""⟩).2 rfl⟩

/-! ## Concrete store used by witnesses -/

/-- A one-room, one-participant store: room "r1" is revealed and Alice
has voted "3". -/
def dbSample : Database :=
  ⟨[⟨"r1", "", VotingSystem.fibonacci, true, ""⟩], [pAlice3]⟩

/-! ## Claim C5: join / create preconditions and effects -/

/-- Claim C5: with non-empty inputs, joinRoom fails with the
room-not-found error when no room row matches, fails with the
duplicate-name error when a same-named participant of the room is found
at check time, and on success appends the participant row with a null
vote and adopts the found rooms revealed flag; createRoom likewise
rejects with the duplicate-name error when a same-named participant
exists in the newly created room at check time. -/
theorem claim5_join_create (db : Database) (roomId username pid createdAt : String)
    (huser : username ≠ "") (hroom : roomId ≠ "") :
    (db.rooms.find? (fun r => r.id == roomId) = none →
        joinRoom db roomId username pid createdAt = .roomNotFound)
      ∧ (∀ room, db.rooms.find? (fun r => r.id == roomId) = some room →
        (∃ p ∈ db.participants, p.room_id = roomId ∧ p.name = username) →
        joinRoom db roomId username pid createdAt = .duplicateName)
      ∧ (∀ room, db.rooms.find? (fun r => r.id == roomId) = some room →
        (∀ p ∈ db.participants, ¬(p.room_id = roomId ∧ p.name = username)) →
        joinRoom db roomId username pid createdAt =
          .success
            { db with participants := db.participants ++ [⟨pid, roomId, username, none, createdAt⟩] }
            pid room.revealed)
      ∧ (∀ newRoomId, (∃ p ∈ db.participants, p.room_id = newRoomId ∧ p.name = username) →
        ∃ db2, createRoom db username newRoomId pid createdAt = .duplicateName db2) := by
  have hcond : ¬((decide (username = "") || decide (roomId = "")) = true) := by
    simp [huser, hroom]
  refine ⟨?_, ?_, ?_, ?_⟩
  · intro hnone
    rw [joinRoom, if_neg hcond, hnone]
  · intro room hfound hex
    obtain ⟨p, hp, hrm, hnm⟩ := hex
    have hsome : (db.participants.find?
        (fun p => p.room_id == roomId && p.name == username)).isSome := by
      rw [List.find?_isSome]
      exact ⟨p, hp, by simp [hrm, hnm]⟩
    obtain ⟨q, hq⟩ := Option.isSome_iff_exists.mp hsome
    rw [joinRoom, if_neg hcond, hfound, hq]
  · intro room hfound hnodup
    have hnone : db.participants.find?
        (fun p => p.room_id == roomId && p.name == username) = none := by
      rw [List.find?_eq_none]
      intro p hp
      simp only [Bool.and_eq_true, beq_iff_eq]
      exact fun hc => hnodup p hp hc
    rw [joinRoom, if_neg hcond, hfound, hnone]
  · intro newRoomId hex
    obtain ⟨p, hp, hrm, hnm⟩ := hex
    have hsome : (db.participants.find?
        (fun p => p.room_id == newRoomId && p.name == username)).isSome := by
      rw [List.find?_isSome]
      exact ⟨p, hp, by simp [hrm, hnm]⟩
    obtain ⟨q, hq⟩ := Option.isSome_iff_exists.mp hsome
    refine ⟨{ db with
      rooms := db.rooms ++ [⟨newRoomId, "", VotingSystem.fibonacci, false, createdAt⟩] }, ?_⟩
    simp only [createRoom, hq]

/-- C5 instantiated concretely: joining a missing room fails, joining
room "r1" as the already-present name "Alice" fails, joining it as "Eve"
succeeds with a null vote and adopts revealed = true, and creating a
room whose fresh id collides with an existing participants room rejects
the duplicate name. -/
theorem claim5_witness :
    joinRoom dbSample "nope" "Eve" "p9" "t9" = .roomNotFound
      ∧ joinRoom dbSample "r1" "Alice" "p9" "t9" = .duplicateName
      ∧ joinRoom dbSample "r1" "Eve" "p9" "t9" =
          .success
            { dbSample with participants := dbSample.participants ++ [⟨"p9", "r1", "Eve", none, "t9"⟩] }
            "p9" true
      ∧ ∃ db2, createRoom dbSample "Alice" "r1" "p9" "t9" = .duplicateName db2 := by
  refine ⟨?_, ?_, ?_, ?_⟩
  · exact (claim5_join_create dbSample "nope" "Eve" "p9" "t9" (by decide) (by decide)).1
      (by decide)
  · exact (claim5_join_create dbSample "r1" "Alice" "p9" "t9" (by decide) (by decide)).2.1
      ⟨"r1", "", VotingSystem.fibonacci, true, ""⟩ (by decide) ⟨pAlice3, by decide, by decide⟩
  · exact (claim5_join_create dbSample "r1" "Eve" "p9" "t9" (by decide) (by decide)).2.2.1
      ⟨"r1", "", VotingSystem.fibonacci, true, ""⟩ (by decide) (by decide)
  · exact (claim5_join_create dbSample "r1" "Alice" "p9" "t9" (by decide) (by decide)).2.2.2
      "r1" ⟨pAlice3, by decide, by decide⟩

/-! ## Claim C6: reset write order and partial failure -/

/-- Claim C6: handleReset issues exactly two writes, in order room
revealed := false then all room votes := null, and clears the local
vote; applying only the first write (second write failed) leaves every
participant row — hence all stale votes — untouched while every room
row with the rooms id is already unrevealed, and the trace contains no
further compensating write. -/
theorem claim6_reset (db : Database) (roomId : String) (st : ControllerView) :
    (handleReset db roomId st).2.1 =
        [WriteOp.setRoomRevealed roomId false, WriteOp.clearRoomVotes roomId]
      ∧ (handleReset db roomId st).2.2.currentVote = none
      ∧ (handleReset db roomId st).2.2.isRevealed = false
      ∧ (applyWrite db (WriteOp.setRoomRevealed roomId false)).participants = db.participants
      ∧ (∀ r ∈ (applyWrite db (WriteOp.setRoomRevealed roomId false)).rooms,
          r.id = roomId → r.revealed = false)
      ∧ (handleReset db roomId st).1 =
          applyWrite (applyWrite db (WriteOp.setRoomRevealed roomId false))
            (WriteOp.clearRoomVotes roomId) := by
  refine ⟨rfl, rfl, rfl, rfl, ?_, rfl⟩
  intro r hr hid
  simp only [applyWrite, List.mem_map] at hr
  obtain ⟨r₀, _, heq⟩ := hr
  by_cases hcase : r₀.id = roomId
  · rw [← heq, if_pos hcase]
  · rw [← heq, if_neg hcase] at hid ⊢
    exact absurd hid hcase

/-- C6 instantiated on the sample store: the two writes in order, and
after only the first write the revealed room "r1" is unrevealed while
Alices stale vote "3" is still there. -/
theorem claim6_witness :
    (handleReset dbSample "r1" ⟨true, some "3", some 3⟩).2.1 =
        [WriteOp.setRoomRevealed "r1" false, WriteOp.clearRoomVotes "r1"]
      ∧ (applyWrite dbSample (WriteOp.setRoomRevealed "r1" false)).participants =
          dbSample.participants
      ∧ (⟨"r1", "", VotingSystem.fibonacci, false, ""⟩ : Room).revealed = false := by
  refine ⟨(claim6_reset dbSample "r1" ⟨true, some "3", some 3⟩).1,
    (claim6_reset dbSample "r1" ⟨true, some "3", some 3⟩).2.2.2.1,
    (claim6_reset dbSample "r1" ⟨true, some "3", some 3⟩).2.2.2.2.1
      ⟨"r1", "", VotingSystem.fibonacci, false, ""⟩ ?_ rfl⟩
  decide

/-! ## Claim C7: vote submission has no joined-guard -/

/-- Claim C7 is false as stated: invoked before any join completed
(participantId is null), handleVote does not fail with a NotJoined
error — it leaves the store untouched (the update filter matches no
row), still issues the write, and still sets the local vote to "5". -/
theorem claim7_counterexample :
    handleVote dbSample none "5" ⟨false, none, none⟩ =
        (dbSample, [WriteOp.setParticipantVote none "5"],
          (⟨false, some "5", none⟩ : ControllerView))
      ∧ some "5" ≠ (none : Option String) := by
  refine ⟨?_, by decide⟩
  decide

/-- Claim C7 amended: handleVote performs no joined-check and has no
NotJoined failure: for every participantId (including null, before a
join completes) it optimistically sets localVote to the label and
issues the row update, which modifies exactly the rows whose id equals
the callers participantId — no row at all when it is null. -/
theorem claim7_amended (db : Database) (pid : Option String) (v : String)
    (st : ControllerView) :
    (handleVote db pid v st).2.2.currentVote = some v
      ∧ (handleVote db pid v st).2.1 = [WriteOp.setParticipantVote pid v]
      ∧ (handleVote db none v st).1 = db
      ∧ (∀ i, (handleVote db (some i) v st).1.participants =
          db.participants.map (fun p => if p.id = i then { p with vote := some v } else p)) := by
  refine ⟨rfl, rfl, ?_, ?_⟩
  · show applyWrite db (WriteOp.setParticipantVote none v) = db
    have hmap : db.participants.map
        (fun p => if some p.id = none then { p with vote := some v } else p) =
        db.participants := by
      have h1 : ∀ p ∈ db.participants,
          (if some p.id = (none : Option String) then { p with vote := some v } else p) = id p := by
        intro p _
        simp
      rw [List.map_congr_left h1, List.map_id]
    simp only [applyWrite, hmap]
  · intro i
    show (applyWrite db (WriteOp.setParticipantVote (some i) v)).participants = _
    simp only [applyWrite]
    apply List.map_congr_left
    intro p _
    simp only [Option.some.injEq]

/-! ## Claim C8: reveal is unguarded in the controller -/

/-- Claim C8: handleReveal issues the revealed := true write and its
store effect is the same for every roster — including a roster holding
a null vote — so the controller performs no all-voted guard; after the
write every room row with the given id is revealed; the all-voted gate
exists only in the UI layer, whose Reveal button is disabled whenever
some participant has a null vote. -/
theorem claim8_reveal_unguarded (db : Database) (roomId : String)
    (ps ps2 : List Participant) (st st2 : ControllerView) :
    (handleReveal db roomId ps st).2.1 = [WriteOp.setRoomRevealed roomId true]
      ∧ (handleReveal db roomId ps st).1 = (handleReveal db roomId ps2 st2).1
      ∧ (∀ r ∈ (handleReveal db roomId ps st).1.rooms, r.id = roomId → r.revealed = true)
      ∧ (handleReveal db roomId ps st).2.2.isRevealed = true
      ∧ (∀ p ∈ ps, p.vote = none → revealDisabled ps = true) := by
  refine ⟨rfl, rfl, ?_, rfl, ?_⟩
  · intro r hr hid
    simp only [handleReveal, List.foldl, applyWrite, List.mem_map] at hr
    obtain ⟨r₀, _, heq⟩ := hr
    by_cases hcase : r₀.id = roomId
    · rw [← heq, if_pos hcase]
    · rw [← heq, if_neg hcase] at hid ⊢
      exact absurd hid hcase
  · intro p hp hv
    have hall : ps.all (fun p => voteTruthy p.vote) = false := by
      rw [List.all_eq_false]
      refine ⟨p, hp, ?_⟩
      rw [hv]
      decide
    rw [revealDisabled, hall]
    rfl

/-- C8 instantiated: revealing room "r1" over the roster [pBobNull] — a
participant without a vote — still issues the write, while the UI gate
is disabled on that roster. -/
theorem claim8_witness :
    (handleReveal dbSample "r1" [pBobNull] ⟨false, none, none⟩).2.1 =
        [WriteOp.setRoomRevealed "r1" true]
      ∧ (handleReveal dbSample "r1" [pBobNull] ⟨false, none, none⟩).1 =
          (handleReveal dbSample "r1" [] ⟨true, some "3", none⟩).1
      ∧ revealDisabled [pBobNull] = true := by
  refine ⟨(claim8_reveal_unguarded dbSample "r1" [pBobNull] [] ⟨false, none, none⟩
      ⟨true, some "3", none⟩).1,
    (claim8_reveal_unguarded dbSample "r1" [pBobNull] [] ⟨false, none, none⟩
      ⟨true, some "3", none⟩).2.1,
    (claim8_reveal_unguarded dbSample "r1" [pBobNull] [] ⟨false, none, none⟩
      ⟨true, some "3", none⟩).2.2.2.2 pBobNull ?_ rfl⟩
  decide

end PokerPlanning
